import Mathlib

/-!
Verification development for the meeting-tools module of the fathom-mcp
repository (src/tools/meetings.ts).  The definitions below are a shallow
embedding of that file's logic:

* `fetchLoop` / `fetchAllMeetings` embed the cursor pagination loop of
  `fetchAllMeetings`.  The upstream API is modelled as the finite trace of
  responses it would give to the successive requests (one trace element per
  issued request); the loop consumes the trace one element per iteration.
  `none` is returned when the trace is exhausted while the loop still wants
  another page (the real loop would be awaiting an upstream response that the
  trace does not determine).  The list of issued requests is returned
  alongside the result so that properties of the request sequence can be
  stated.
* `meetingFilter` / `searchFilter` / `searchMeetingsRun` embed the
  `search_meetings` tool handler's filter and response assembly.  JavaScript
  `Date` values are modelled as milliseconds since the epoch (`Int`) with
  `none` standing for an invalid date (`NaN`) or an absent field; day
  normalisation (`setHours`) is modelled in UTC.  A supplied date-string
  argument is represented by its parse result `Option Int` (`none` = the
  string did not parse, i.e. `new Date(s)` is an Invalid Date); an absent or
  empty (falsy) argument is the outer `none`.
* `JVal`, `formatSegment`, `extractTranscript` and `fathomGetTranscript`
  embed the `fathom_get_transcript` tool handler: `JVal` models a parsed
  JSON value (plus `undef` for JavaScript `undefined`), `jget`/`joptGet`
  model property access and optional chaining, `jtruthy`/`jor` model
  JavaScript truthiness and `||`.
-/

/-- One upstream response to a `listMeetings` request: either a successful
page carrying an item list and the `nextCursor` field (the empty string
models a missing / falsy cursor), or a thrown error. -/
inductive PageResp (α : Type) where
  | ok (items : List α) (nextCursor : String)
  | err
deriving DecidableEq

/-- One issued `listMeetings` request: the cursor it was made with and the
two include flags passed through from `fetchAllMeetings`' parameters. -/
structure ListReq where
  cursor : String
  includeSummary : Bool
  includeTranscript : Bool
deriving DecidableEq

/-- Embedding of the `while (hasMorePages)` pagination loop of
`fetchAllMeetings`, parameterised by the current cursor and consuming the
trace of upstream responses.  Returns the accumulated items, the `hadError`
flag and the list of issued requests; `none` when the trace is exhausted
while the loop still awaits a response. -/
def fetchLoop (incS incT : Bool) (cursor : String) :
    List (PageResp α) → Option (List α × Bool × List ListReq)
  | [] => none
  | PageResp.err :: _ => some ([], true, [⟨cursor, incS, incT⟩])
  | PageResp.ok items next :: rest =>
    if next.isEmpty then
      some (items, false, [⟨cursor, incS, incT⟩])
    else
      match fetchLoop incS incT next rest with
      | none => none
      | some (ms, e, reqs) => some (items ++ ms, e, ⟨cursor, incS, incT⟩ :: reqs)

/-- Embedding of `fetchAllMeetings`: run the pagination loop from the
initial empty cursor and return `{ meetings, hadError }`. -/
def fetchAllMeetings (incS incT : Bool) (pages : List (PageResp α)) :
    Option (List α × Bool) :=
  (fetchLoop incS incT "" pages).map fun r => (r.1, r.2.1)

/-- A calendar invitee of a meeting: optional name and optional email. -/
structure Invitee where
  name : Option String
  email : Option String
deriving DecidableEq

/-- A meeting record as consumed by the `search_meetings` filter and
formatter.  Timestamps are milliseconds since the epoch; `none` models an
absent field. -/
structure Meeting where
  recordingId : Int
  title : Option String
  meetingTitle : Option String
  scheduledStartTime : Option Int
  scheduledEndTime : Option Int
  url : Option String
  shareUrl : Option String
  calendarInvitees : Option (List Invitee)
deriving DecidableEq

/-- Arguments of the `search_meetings` tool.  A date argument is `none` when
absent (or empty, hence falsy in the handler's `if (args.startDate)` tests);
when supplied it carries the result of `new Date(s)`: `some t` for a valid
parse, `none` for an Invalid Date (`NaN`). -/
structure SearchArgs where
  participantKeywords : Option (List String)
  titleKeywords : Option (List String)
  startDate : Option (Option Int)
  endDate : Option (Option Int)
deriving DecidableEq

/-- Embedding of JavaScript `String.prototype.includes`: the empty pattern
is contained in every string, otherwise `splitOn` finds an occurrence iff it
produces more than one piece. -/
def jsIncludes (s pat : String) : Bool :=
  pat.isEmpty || (s.splitOn pat).length != 1

/-- Embedding of `field?.toLowerCase().includes(kwLower)` for an optional
string field: an absent field never matches. -/
def optLowerIncludes (field : Option String) (kwLower : String) : Bool :=
  match field with
  | some s => jsIncludes s.toLower kwLower
  | none => false

/-- The merged keyword list: `[...(args.participantKeywords || []),
...(args.titleKeywords || [])]`. -/
def allKeywords (args : SearchArgs) : List String :=
  args.participantKeywords.getD [] ++ args.titleKeywords.getD []

/-- Embedding of the `foundInParticipants` check of the filter: some invitee
whose name or email contains the lower-cased keyword (`?.some(...)` on an
absent invitee list is `undefined`, hence falsy). -/
def foundInParticipants (kwLower : String) (m : Meeting) : Bool :=
  match m.calendarInvitees with
  | some invs => invs.any fun inv =>
      optLowerIncludes inv.name kwLower || optLowerIncludes inv.email kwLower
  | none => false

/-- Embedding of the `foundInTitle` check of the filter: the title or the
meeting title contains the lower-cased keyword. -/
def foundInTitle (kwLower : String) (m : Meeting) : Bool :=
  optLowerIncludes m.title kwLower || optLowerIncludes m.meetingTitle kwLower

/-- Embedding of the keyword criterion of the `search_meetings` filter:
vacuously true when no keywords are supplied, otherwise some merged keyword
must be found among the participants or in the titles. -/
def keywordMatch (args : SearchArgs) (m : Meeting) : Bool :=
  let allKw := allKeywords args
  if allKw.isEmpty then true
  else allKw.any fun kw =>
    foundInParticipants kw.toLower m || foundInTitle kw.toLower m

/-- Milliseconds per day. -/
def msPerDay : Int := 86400000

/-- Embedding of `date.setHours(0, 0, 0, 0)` (in UTC): the midnight opening
the day containing `t`. -/
def startOfDay (t : Int) : Int := msPerDay * Int.fdiv t msPerDay

/-- Embedding of `date.setHours(23, 59, 59, 999)` (in UTC): the last
millisecond of the day containing `t`. -/
def endOfDay (t : Int) : Int := startOfDay t + (msPerDay - 1)

/-- JavaScript `>=` on dates: comparisons involving `NaN` (or `undefined`,
both modelled as `none`) are false. -/
def jsGe : Option Int → Option Int → Bool
  | some a, some b => b ≤ a
  | _, _ => false

/-- JavaScript `<=` on dates: comparisons involving `NaN` (or `undefined`,
both modelled as `none`) are false. -/
def jsLe : Option Int → Option Int → Bool
  | some a, some b => a ≤ b
  | _, _ => false

/-- Embedding of the date-range criterion of the `search_meetings` filter:
vacuously true when neither bound is supplied; a supplied start date is
normalised to the start of its day and compared with `>=`, a supplied end
date to the end of its day and compared with `<=`. -/
def dateMatch (args : SearchArgs) (m : Meeting) : Bool :=
  if args.startDate.isSome || args.endDate.isSome then
    let md := m.scheduledStartTime
    let d1 := match args.startDate with
      | some sd => jsGe md (sd.map startOfDay)
      | none => true
    let d2 := match args.endDate with
      | some ed => jsLe md (ed.map endOfDay)
      | none => true
    d1 && d2
  else true

/-- The predicate of the `allMeetings.filter(...)` call in `search_meetings`:
keyword criterion AND date criterion. -/
def meetingFilter (args : SearchArgs) (m : Meeting) : Bool :=
  keywordMatch args m && dateMatch args m

/-- The filtering step of `search_meetings`. -/
def searchFilter (args : SearchArgs) (ms : List Meeting) : List Meeting :=
  ms.filter (meetingFilter args)

/-- Embedding of `Math.round((end - start) / 1000 / 60)`; `none` models the
`NaN` produced when either timestamp is absent.  `Math.round x` is
`⌊x + 1/2⌋`, computed here exactly on the millisecond difference. -/
def durationMinutes (startT endT : Option Int) : Option Int :=
  match endT, startT with
  | some e, some s => some (Int.fdiv (2 * (e - s) + 60000) 120000)
  | _, _ => none

/-- A formatted meeting as assembled by the `search_meetings` handler.
`startedAt`/`endedAt` keep the underlying timestamps (their locale display
formatting is presentation only and not modelled). -/
structure FormattedMeeting where
  recordingId : Int
  title : Option String
  meetingTitle : Option String
  startedAt : Option Int
  endedAt : Option Int
  durationMinutes : Option Int
  url : Option String
  shareUrl : Option String
  participants : Option (List Invitee)
deriving DecidableEq

/-- The projection of one filtered meeting into the formatted shape. -/
def formatMeeting (m : Meeting) : FormattedMeeting :=
  { recordingId := m.recordingId
    title := m.title
    meetingTitle := m.meetingTitle
    startedAt := m.scheduledStartTime
    endedAt := m.scheduledEndTime
    durationMinutes := durationMinutes m.scheduledStartTime m.scheduledEndTime
    url := m.url
    shareUrl := m.shareUrl
    participants := m.calendarInvitees }

/-- The module-level elicitation toggle (`const ENABLE_ELICITATION = true`). -/
def ENABLE_ELICITATION : Bool := true

/-- The static elicitation prompt appended when at least one meeting
matched. -/
def elicitationText : String :=
  "\n\nWould you like a summary or full transcript for any of these meetings? If so, please provide the recordingId."

/-- The structured result of a `search_meetings` invocation, together with
the trace of upstream requests the aggregation issued. -/
structure SearchOutput where
  meetings : List FormattedMeeting
  count : Nat
  elicitationPrompt : String
  isError : Bool
  requests : List ListReq
deriving DecidableEq

/-- Embedding of the `search_meetings` handler: aggregate all pages with
both include flags hardcoded to `false`, filter, format, and assemble the
response; `none` when the upstream trace does not determine the
aggregation's completion. -/
def searchMeetingsRun (args : SearchArgs) (pages : List (PageResp Meeting)) :
    Option SearchOutput :=
  match fetchLoop false false "" pages with
  | none => none
  | some (allMeetings, hadError, reqs) =>
    let filtered := allMeetings.filter (meetingFilter args)
    let formatted := filtered.map formatMeeting
    let prompt :=
      if ENABLE_ELICITATION && formatted.length > 0 then elicitationText else ""
    some { meetings := formatted, count := formatted.length,
           elicitationPrompt := prompt, isError := hadError, requests := reqs }

/-- A parsed JSON value as handled by the transcript tool; `undef` models
JavaScript `undefined` (the result of accessing a missing property). -/
inductive JVal where
  | undef
  | null
  | bool (b : Bool)
  | num (n : Int)
  | str (s : String)
  | arr (elems : List JVal)
  | obj (fields : List (String × JVal))

/-- Property access `v.k`: the first matching field of an object, otherwise
`undefined` (accessing a property of a primitive or array yields
`undefined` for the property names used here). -/
def jget : JVal → String → JVal
  | JVal.obj fs, k =>
    match fs.find? (fun f => f.1 == k) with
    | some f => f.2
    | none => JVal.undef
  | _, _ => JVal.undef

/-- Optional-chaining access `v?.k`: `undefined` when `v` is nullish. -/
def joptGet (v : JVal) (k : String) : JVal :=
  match v with
  | JVal.undef => JVal.undef
  | JVal.null => JVal.undef
  | _ => jget v k

/-- JavaScript truthiness of a JSON value. -/
def jtruthy : JVal → Bool
  | JVal.undef => false
  | JVal.null => false
  | JVal.bool b => b
  | JVal.num n => n != 0
  | JVal.str s => !s.isEmpty
  | JVal.arr _ => true
  | JVal.obj _ => true

/-- JavaScript `a || b`. -/
def jor (a b : JVal) : JVal := if jtruthy a then a else b

/-- One normalised transcript segment, the shape
`{speaker, speakerEmail, text, timestamp}` built by the handler. -/
structure FormattedSegment where
  speaker : JVal
  speakerEmail : JVal
  text : JVal
  timestamp : JVal

/-- Embedding of the per-segment normalisation
`{ speaker: item.speaker?.name || "Unknown Speaker",
   speakerEmail: item.speaker?.email, text: item.text,
   timestamp: item.timestamp }`. -/
def formatSegment (item : JVal) : FormattedSegment :=
  { speaker := jor (joptGet (jget item "speaker") "name") (JVal.str "Unknown Speaker")
    speakerEmail := joptGet (jget item "speaker") "email"
    text := jget item "text"
    timestamp := jget item "timestamp" }

/-- Embedding of the response-shape check
`data && typeof data === "object" && "transcript" in data &&
Array.isArray(data.transcript)`: only a (truthy, non-array) object whose
`transcript` field is an array passes, yielding that array. -/
def extractTranscript (data : JVal) : Option (List JVal) :=
  match data with
  | JVal.obj fs =>
    match fs.find? (fun f => f.1 == "transcript") with
    | some f =>
      match f.2 with
      | JVal.arr xs => some xs
      | _ => none
    | none => none
  | _ => none

/-- Result of a `fathom_get_transcript` invocation: either the normalised
transcript, or the error result whose text is built by formatting the
unrecognised response body. -/
inductive TranscriptResult where
  | ok (recordingId : Int) (transcript : List FormattedSegment)
  | unexpectedFormat (data : JVal)

/-- The `isError` flag of the tool result. -/
def TranscriptResult.isError : TranscriptResult → Bool
  | TranscriptResult.ok _ _ => false
  | TranscriptResult.unexpectedFormat _ => true

/-- The transcript carried by the tool result, when any. -/
def TranscriptResult.transcriptOf : TranscriptResult → Option (List FormattedSegment)
  | TranscriptResult.ok _ t => some t
  | TranscriptResult.unexpectedFormat _ => none

/-- Embedding of the `fathom_get_transcript` handler applied to the parsed
response body: on a recognised shape, map every segment through
`formatSegment`; otherwise return the error result. -/
def fathomGetTranscript (recordingId : Int) (data : JVal) : TranscriptResult :=
  match extractTranscript data with
  | some items => TranscriptResult.ok recordingId (items.map formatSegment)
  | none => TranscriptResult.unexpectedFormat data

/-- Specification-level predicate: `kw` occurs case-insensitively as a
substring of `s` (the keyword is lower-cased once, the field per test, as in
the handler). -/
def ciSubstr (kw s : String) : Prop := jsIncludes s.toLower kw.toLower = true

/-- Specification-level keyword criterion for one keyword: it occurs
case-insensitively in some participant's name, some participant's email,
the meeting's title, or the meeting's display title. -/
def MatchesKeyword (kw : String) (m : Meeting) : Prop :=
  (∃ invs, m.calendarInvitees = some invs ∧ ∃ inv ∈ invs,
      (∃ s, inv.name = some s ∧ ciSubstr kw s) ∨
      (∃ s, inv.email = some s ∧ ciSubstr kw s)) ∨
  (∃ s, m.title = some s ∧ ciSubstr kw s) ∨
  (∃ s, m.meetingTitle = some s ∧ ciSubstr kw s)

/-- The truthy (non-empty) `nextCursor` values a trace of upstream responses
can ever hand to the loop. -/
def truthyNextCursors (pages : List (PageResp α)) : List String :=
  pages.filterMap fun p =>
    match p with
    | PageResp.ok _ next => if next = "" then none else some next
    | PageResp.err => none

/-- A trace element on which the loop stops: a thrown error, or a success
whose `nextCursor` is falsy. -/
def isTerminalPage : PageResp α → Prop :=
  fun p => p = PageResp.err ∨ ∃ items, p = PageResp.ok items ""

/-! Helper lemmas about the pagination loop. -/

theorem fetchLoop_ok_stop (incS incT : Bool) (c : String) (items : List α)
    (rest : List (PageResp α)) :
    fetchLoop incS incT c (PageResp.ok items "" :: rest) =
      some (items, false, [⟨c, incS, incT⟩]) := by
  have h0 : "".isEmpty = true := (String.isEmpty_iff "").mpr rfl
  simp [fetchLoop, h0]

theorem fetchLoop_ok_cons (incS incT : Bool) (c : String) (items : List α)
    (next : String) (rest : List (PageResp α)) (h : next ≠ "") :
    fetchLoop incS incT c (PageResp.ok items next :: rest) =
      (fetchLoop incS incT next rest).map
        (fun r => (items ++ r.1, r.2.1, ⟨c, incS, incT⟩ :: r.2.2)) := by
  have hne : next.isEmpty = false := by
    cases hn : next.isEmpty
    · rfl
    · exact absurd ((String.isEmpty_iff next).mp hn) h
  simp only [fetchLoop, hne, Bool.false_eq_true, if_false]
  cases hr : fetchLoop incS incT next rest with
  | none => rfl
  | some r => obtain ⟨ms, e, reqs⟩ := r; rfl

theorem fetchLoop_all_ok (incS incT : Bool) (lastItems : List α) :
    ∀ (front : List (List α × String)) (c : String),
      (∀ p ∈ front, p.2 ≠ "") →
      fetchLoop incS incT c
          ((front.map fun p => PageResp.ok p.1 p.2) ++ [PageResp.ok lastItems ""]) =
        some ((front.map Prod.fst).flatten ++ lastItems, false,
          ⟨c, incS, incT⟩ :: front.map fun p => ⟨p.2, incS, incT⟩) := by
  intro front
  induction front with
  | nil =>
    intro c _
    simp [fetchLoop_ok_stop]
  | cons p front ih =>
    intro c hfr
    have hp : p.2 ≠ "" := hfr p (List.mem_cons_self _ _)
    rw [List.map_cons, List.cons_append, fetchLoop_ok_cons _ _ _ _ _ _ hp,
      ih p.2 (fun q hq => hfr q (List.mem_cons_of_mem _ hq))]
    simp [List.append_assoc]

theorem fetchLoop_err_after (incS incT : Bool) :
    ∀ (good : List (List α × String)) (c : String) (rest : List (PageResp α)),
      (∀ p ∈ good, p.2 ≠ "") →
      fetchLoop incS incT c
          ((good.map fun p => PageResp.ok p.1 p.2) ++ PageResp.err :: rest) =
        some ((good.map Prod.fst).flatten, true,
          ⟨c, incS, incT⟩ :: good.map fun p => ⟨p.2, incS, incT⟩) := by
  intro good
  induction good with
  | nil =>
    intro c rest _
    simp [fetchLoop]
  | cons p good ih =>
    intro c rest hfr
    have hp : p.2 ≠ "" := hfr p (List.mem_cons_self _ _)
    rw [List.map_cons, List.cons_append, fetchLoop_ok_cons _ _ _ _ _ _ hp,
      ih p.2 rest (fun q hq => hfr q (List.mem_cons_of_mem _ hq))]
    simp [List.append_assoc]

/-- C1: for every finite trace of upstream pages in which each page succeeds
and each non-final page returns a non-empty next-cursor (the final page's
cursor being falsy), `fetchAllMeetings` returns the concatenation of all
pages' item lists in request order (order preserved, no de-duplication)
together with the error flag `false`. -/
theorem fetchAllMeetings_concat_pages {α : Type} (incS incT : Bool)
    (front : List (List α × String)) (lastItems : List α)
    (hfront : ∀ p ∈ front, p.2 ≠ "") :
    fetchAllMeetings incS incT
        ((front.map fun p => PageResp.ok p.1 p.2) ++ [PageResp.ok lastItems ""]) =
      some ((front.map Prod.fst).flatten ++ lastItems, false) := by
  unfold fetchAllMeetings
  rw [fetchLoop_all_ok incS incT lastItems front "" hfront]
  rfl

/-- Witness for C1 at a concrete three-page trace. -/
theorem fetchAllMeetings_concat_pages_witness :
    fetchAllMeetings false false
        ((([([1, 2], "a"), ([3], "b")] : List (List Nat × String)).map
            fun p => PageResp.ok p.1 p.2) ++ [PageResp.ok [4] ""]) =
      some ((([([1, 2], "a"), ([3], "b")] : List (List Nat × String)).map
          Prod.fst).flatten ++ [4], false) :=
  fetchAllMeetings_concat_pages false false [([1, 2], "a"), ([3], "b")] [4] (by decide)

/-- C2: if the request for page k throws while pages 1..k-1 succeeded with
non-empty cursors, `fetchAllMeetings` returns exactly the concatenation of
the first k-1 pages' items with the error flag `true`, and the loop issues
exactly k requests (the k-th being the failing one) — no request is issued
for any later page, whatever the rest of the trace holds. -/
theorem fetchAllMeetings_partial_on_error {α : Type} (incS incT : Bool)
    (good : List (List α × String)) (rest : List (PageResp α))
    (hgood : ∀ p ∈ good, p.2 ≠ "") :
    fetchAllMeetings incS incT
        ((good.map fun p => PageResp.ok p.1 p.2) ++ PageResp.err :: rest) =
      some ((good.map Prod.fst).flatten, true) ∧
    fetchLoop incS incT ""
        ((good.map fun p => PageResp.ok p.1 p.2) ++ PageResp.err :: rest) =
      some ((good.map Prod.fst).flatten, true,
        ⟨"", incS, incT⟩ :: good.map fun p => ⟨p.2, incS, incT⟩) ∧
    (⟨"", incS, incT⟩ :: good.map fun p => (⟨p.2, incS, incT⟩ : ListReq)).length =
      good.length + 1 := by
  refine ⟨?_, fetchLoop_err_after incS incT good "" rest hgood, ?_⟩
  · unfold fetchAllMeetings
    rw [fetchLoop_err_after incS incT good "" rest hgood]
    rfl
  · simp

/-- Witness for C2: one successful page, then a failure, with a further
(never requested) page left in the trace. -/
theorem fetchAllMeetings_partial_on_error_witness :
    fetchAllMeetings false false
        ((([([1, 2], "a")] : List (List Nat × String)).map
            fun p => PageResp.ok p.1 p.2) ++ PageResp.err :: [PageResp.ok [9] "z"]) =
      some ((([([1, 2], "a")] : List (List Nat × String)).map Prod.fst).flatten, true) ∧
    fetchLoop false false ""
        ((([([1, 2], "a")] : List (List Nat × String)).map
            fun p => PageResp.ok p.1 p.2) ++ PageResp.err :: [PageResp.ok [9] "z"]) =
      some ((([([1, 2], "a")] : List (List Nat × String)).map Prod.fst).flatten, true,
        ⟨"", false, false⟩ ::
          ([([1, 2], "a")] : List (List Nat × String)).map fun p => ⟨p.2, false, false⟩) ∧
    (⟨"", false, false⟩ ::
        ([([1, 2], "a")] : List (List Nat × String)).map
          fun p => (⟨p.2, false, false⟩ : ListReq)).length =
      ([([1, 2], "a")] : List (List Nat × String)).length + 1 :=
  fetchAllMeetings_partial_on_error false false [([1, 2], "a")]
    [PageResp.ok [9] "z"] (by decide)

theorem mem_truthyNextCursors_ne (pages : List (PageResp α)) (s : String)
    (hs : s ∈ truthyNextCursors pages) : s ≠ "" := by
  unfold truthyNextCursors at hs
  rw [List.mem_filterMap] at hs
  obtain ⟨p, -, hp⟩ := hs
  cases p with
  | ok items next =>
    by_cases hn : next = ""
    · simp [hn] at hp
    · simp only [hn, if_false] at hp
      injection hp with hp
      exact hp ▸ hn
  | err => simp at hp

theorem fetchLoop_reqs_shape (incS incT : Bool) :
    ∀ (pages : List (PageResp α)) (c : String) (ms : List α) (e : Bool) (reqs : List ListReq),
      fetchLoop incS incT c pages = some (ms, e, reqs) →
      ∃ t, reqs = ⟨c, incS, incT⟩ :: t ∧
        (t.map ListReq.cursor).Sublist (truthyNextCursors pages) := by
  intro pages
  induction pages with
  | nil =>
    intro c ms e reqs h
    exact absurd h (by simp [fetchLoop])
  | cons p rest ih =>
    intro c ms e reqs h
    cases p with
    | err =>
      simp only [fetchLoop, Option.some.injEq, Prod.mk.injEq] at h
      refine ⟨[], h.2.2.symm, ?_⟩
      exact List.nil_sublist _
    | ok items next =>
      by_cases hn : next = ""
      · subst hn
        rw [fetchLoop_ok_stop] at h
        simp only [Option.some.injEq, Prod.mk.injEq] at h
        exact ⟨[], h.2.2.symm, List.nil_sublist _⟩
      · rw [fetchLoop_ok_cons _ _ _ _ _ _ hn] at h
        cases hr : fetchLoop incS incT next rest with
        | none => rw [hr] at h; simp at h
        | some r =>
          obtain ⟨ms', e', reqs'⟩ := r
          rw [hr] at h
          simp only [Option.map_some', Option.some.injEq, Prod.mk.injEq] at h
          obtain ⟨t', ht', hsub⟩ := ih next ms' e' reqs' hr
          refine ⟨reqs', h.2.2.symm, ?_⟩
          have hcur : truthyNextCursors (PageResp.ok items next :: rest) =
              next :: truthyNextCursors rest := by
            simp [truthyNextCursors, List.filterMap_cons, hn]
          rw [hcur, ht', List.map_cons]
          exact List.Sublist.cons₂ _ hsub

theorem fetchLoop_isSome_of_terminal (incS incT : Bool) :
    ∀ (pages : List (PageResp α)) (c : String),
      (∃ p ∈ pages, isTerminalPage p) → (fetchLoop incS incT c pages).isSome := by
  intro pages
  induction pages with
  | nil =>
    intro c h
    obtain ⟨p, hp, -⟩ := h
    simp at hp
  | cons q rest ih =>
    intro c h
    cases q with
    | err => simp [fetchLoop]
    | ok items next =>
      by_cases hn : next = ""
      · subst hn
        rw [fetchLoop_ok_stop]
        rfl
      · obtain ⟨p, hp, hterm⟩ := h
        have hmem : ∃ p ∈ rest, isTerminalPage p := by
          rcases List.mem_cons.mp hp with rfl | hmem
          · rcases hterm with h1 | ⟨its, h2⟩
            · exact absurd h1 (by simp)
            · injection h2 with h3 h4
              exact absurd h4 hn
          · exact ⟨p, hmem, hterm⟩
        rw [fetchLoop_ok_cons _ _ _ _ _ _ hn]
        have hrec := ih next hmem
        cases hr : fetchLoop incS incT next rest with
        | none => rw [hr] at hrec; exact absurd hrec (by simp)
        | some r => rfl

/-- C6: the pagination loop never re-requests a cursor it has already
consumed (given that the upstream hands out pairwise distinct truthy
cursors), treats a falsy next-cursor on a successful response as normal
termination with the error flag `false`, continues to the next page on a
truthy next-cursor even when the page's item list is empty, and is defined
(terminates) on every trace holding a failure or a falsy next-cursor. -/
theorem fetch_pagination_loop_invariants {α : Type} (incS incT : Bool) (c next : String)
    (items ms : List α) (e : Bool) (reqs : List ListReq)
    (rest pagesA pagesB : List (PageResp α))
    (hnext : next ≠ "")
    (hrun : fetchLoop incS incT "" pagesA = some (ms, e, reqs))
    (hnodup : (truthyNextCursors pagesA).Nodup)
    (hterm : ∃ p ∈ pagesB, isTerminalPage p) :
    (reqs.map ListReq.cursor).Nodup ∧
    fetchLoop incS incT c (PageResp.ok items "" :: rest) =
      some (items, false, [⟨c, incS, incT⟩]) ∧
    fetchLoop incS incT c (PageResp.ok [] next :: rest) =
      (fetchLoop incS incT next rest).map
        (fun r => ([] ++ r.1, r.2.1, ⟨c, incS, incT⟩ :: r.2.2)) ∧
    (fetchLoop incS incT c pagesB).isSome := by
  refine ⟨?_, fetchLoop_ok_stop incS incT c items rest,
    fetchLoop_ok_cons incS incT c [] next rest hnext,
    fetchLoop_isSome_of_terminal incS incT pagesB c hterm⟩
  obtain ⟨t, rfl, hsub⟩ := fetchLoop_reqs_shape incS incT pagesA "" ms e reqs hrun
  rw [List.map_cons]
  refine List.nodup_cons.mpr ⟨?_, hsub.nodup hnodup⟩
  intro hmem
  exact mem_truthyNextCursors_ne pagesA "" (hsub.subset hmem) rfl

/-- Witness for C6 at a concrete two-page trace with distinct cursors, a
concrete continuation page with an empty item list, and a concrete failing
trace for the termination conjunct. -/
theorem fetch_pagination_loop_invariants_witness :
    (([⟨"", false, false⟩, ⟨"a", false, false⟩] : List ListReq).map ListReq.cursor).Nodup ∧
    fetchLoop false false "c" (PageResp.ok ([7] : List Nat) "" :: []) =
      some ([7], false, [⟨"c", false, false⟩]) ∧
    fetchLoop false false "c" (PageResp.ok ([] : List Nat) "n" :: []) =
      (fetchLoop false false "n" ([] : List (PageResp Nat))).map
        (fun r => ([] ++ r.1, r.2.1, ⟨"c", false, false⟩ :: r.2.2)) ∧
    (fetchLoop false false "c" [PageResp.err (α := Nat)]).isSome :=
  fetch_pagination_loop_invariants false false "c" "n" [7] [1, 2] false
    [⟨"", false, false⟩, ⟨"a", false, false⟩] []
    [PageResp.ok [1] "a", PageResp.ok [2] ""] [PageResp.err]
    (by decide) (by decide) (by decide)
    ⟨PageResp.err, List.mem_cons_self _ _, Or.inl rfl⟩

theorem fetchLoop_flags (incS incT : Bool) :
    ∀ (pages : List (PageResp α)) (c : String) (ms : List α) (e : Bool) (reqs : List ListReq),
      fetchLoop incS incT c pages = some (ms, e, reqs) →
      ∀ req ∈ reqs, req.includeSummary = incS ∧ req.includeTranscript = incT := by
  intro pages
  induction pages with
  | nil =>
    intro c ms e reqs h
    exact absurd h (by simp [fetchLoop])
  | cons p rest ih =>
    intro c ms e reqs h
    cases p with
    | err =>
      simp only [fetchLoop, Option.some.injEq, Prod.mk.injEq] at h
      rw [← h.2.2]
      intro req hreq
      rw [List.mem_singleton] at hreq
      subst hreq
      exact ⟨rfl, rfl⟩
    | ok items next =>
      by_cases hn : next = ""
      · subst hn
        rw [fetchLoop_ok_stop] at h
        simp only [Option.some.injEq, Prod.mk.injEq] at h
        rw [← h.2.2]
        intro req hreq
        rw [List.mem_singleton] at hreq
        subst hreq
        exact ⟨rfl, rfl⟩
      · rw [fetchLoop_ok_cons _ _ _ _ _ _ hn] at h
        cases hr : fetchLoop incS incT next rest with
        | none => rw [hr] at h; simp at h
        | some r =>
          obtain ⟨ms', e', reqs'⟩ := r
          rw [hr] at h
          simp only [Option.map_some', Option.some.injEq, Prod.mk.injEq] at h
          rw [← h.2.2]
          intro req hreq
          rcases List.mem_cons.mp hreq with rfl | hmem
          · exact ⟨rfl, rfl⟩
          · exact ih next ms' e' reqs' hr req hmem

/-- C10: every `search_meetings` invocation aggregates with
`includeSummary = false` and `includeTranscript = false`, whatever the
caller's arguments: every upstream request it issues carries both include
flags false. -/
theorem search_meetings_no_detail_flags (args : SearchArgs)
    (pages : List (PageResp Meeting)) (out : SearchOutput)
    (h : searchMeetingsRun args pages = some out) :
    ∀ req ∈ out.requests, req.includeSummary = false ∧ req.includeTranscript = false := by
  unfold searchMeetingsRun at h
  cases hr : fetchLoop false false "" pages with
  | none => rw [hr] at h; exact absurd h (by simp)
  | some r =>
    obtain ⟨ms, e, reqs⟩ := r
    rw [hr] at h
    simp only [Option.some.injEq] at h
    have hreqs : out.requests = reqs := by rw [← h]
    rw [hreqs]
    exact fetchLoop_flags false false pages "" ms e reqs hr

/-- Witness for C10 at a one-page trace, instantiated at the single request
that run issues. -/
theorem search_meetings_no_detail_flags_witness :
    (⟨"", false, false⟩ : ListReq).includeSummary = false ∧
    (⟨"", false, false⟩ : ListReq).includeTranscript = false :=
  search_meetings_no_detail_flags ⟨none, none, none, none⟩ [PageResp.ok [] ""]
    (SearchOutput.mk [] 0 "" false [⟨"", false, false⟩]) (by rfl)
    ⟨"", false, false⟩ (List.mem_cons_self _ _)

/-- C5: with no keywords and no date bounds supplied, the `search_meetings`
filter is the identity on the aggregated collection. -/
theorem search_filter_identity (args : SearchArgs) (ms : List Meeting)
    (h1 : args.participantKeywords = none) (h2 : args.titleKeywords = none)
    (h3 : args.startDate = none) (h4 : args.endDate = none) :
    searchFilter args ms = ms := by
  have hp : ∀ m, meetingFilter args m = true := by
    intro m
    unfold meetingFilter keywordMatch dateMatch allKeywords
    rw [h1, h2, h3, h4]
    rfl
  unfold searchFilter
  exact List.filter_eq_self.mpr (fun a _ => hp a)

/-- Witness for C5 on a concrete two-meeting collection. -/
theorem search_filter_identity_witness :
    searchFilter ⟨none, none, none, none⟩
        [Meeting.mk 1 (some "Standup") none (some 0) none none none none,
         Meeting.mk 2 none none none none none none (some [Invitee.mk none none])] =
      [Meeting.mk 1 (some "Standup") none (some 0) none none none none,
       Meeting.mk 2 none none none none none none (some [Invitee.mk none none])] :=
  search_filter_identity ⟨none, none, none, none⟩ _ rfl rfl rfl rfl

theorem optLowerIncludes_iff (f : Option String) (kwLower : String) :
    optLowerIncludes f kwLower = true ↔
      ∃ s, f = some s ∧ jsIncludes s.toLower kwLower = true := by
  cases f <;> simp [optLowerIncludes]

theorem found_or_iff (kw : String) (m : Meeting) :
    (foundInParticipants kw.toLower m || foundInTitle kw.toLower m) = true ↔
      MatchesKeyword kw m := by
  unfold MatchesKeyword ciSubstr
  rw [Bool.or_eq_true]
  apply or_congr
  · cases h : m.calendarInvitees with
    | none => simp [foundInParticipants, h]
    | some invs =>
      simp [foundInParticipants, h, List.any_eq_true, Bool.or_eq_true, optLowerIncludes_iff]
  · simp [foundInTitle, Bool.or_eq_true, optLowerIncludes_iff]

/-- C3: with at least one keyword supplied, a record passes the
`search_meetings` filter iff some keyword of the merged participant-plus-
title keyword set occurs case-insensitively in a participant's name, a
participant's email, the title, or the display title (disjunction across
keywords and fields), AND the record satisfies the date criterion. -/
theorem search_filter_keyword_iff (args : SearchArgs) (m : Meeting)
    (hkw : allKeywords args ≠ []) :
    meetingFilter args m = true ↔
      ((∃ kw ∈ allKeywords args, MatchesKeyword kw m) ∧ dateMatch args m = true) := by
  unfold meetingFilter
  rw [Bool.and_eq_true]
  refine and_congr ?_ Iff.rfl
  unfold keywordMatch
  have hE : (allKeywords args).isEmpty = false := by
    cases h : allKeywords args with
    | nil => exact absurd h hkw
    | cons a l => rfl
  simp only [hE, Bool.false_eq_true, if_false, List.any_eq_true]
  constructor
  · rintro ⟨kw, hmem, hkwm⟩
    exact ⟨kw, hmem, (found_or_iff kw m).mp hkwm⟩
  · rintro ⟨kw, hmem, hkwm⟩
    exact ⟨kw, hmem, (found_or_iff kw m).mpr hkwm⟩

/-- Witness for C3: the keyword "SAM" matches a participant email
case-insensitively while no title is present. -/
theorem search_filter_keyword_iff_witness :
    meetingFilter ⟨some ["SAM"], none, none, none⟩
        (Meeting.mk 1 none none none none none none
          (some [Invitee.mk none (some "sam@x.com")])) = true ↔
      ((∃ kw ∈ allKeywords ⟨some ["SAM"], none, none, none⟩,
          MatchesKeyword kw
            (Meeting.mk 1 none none none none none none
              (some [Invitee.mk none (some "sam@x.com")]))) ∧
        dateMatch ⟨some ["SAM"], none, none, none⟩
          (Meeting.mk 1 none none none none none none
            (some [Invitee.mk none (some "sam@x.com")])) = true) :=
  search_filter_keyword_iff ⟨some ["SAM"], none, none, none⟩
    (Meeting.mk 1 none none none none none none
      (some [Invitee.mk none (some "sam@x.com")])) (by decide)

/-- C4: a supplied start date is normalised to 00:00:00.000 of its calendar
day (the largest day-multiple at or below it) and records are retained only
when their scheduled-start timestamp is `>=` that instant; a record exactly
at the normalised boundary passes the date criterion and a record one
millisecond earlier fails it.  Symmetrically a supplied end date is
normalised to 23:59:59.999 of its day and compared with `<=`. -/
theorem search_date_boundaries (argsS argsE : SearchArgs) (ts te : Int)
    (m mb ma : Meeting)
    (hs : argsS.startDate = some (some ts)) (hse : argsS.endDate = none)
    (he : argsE.endDate = some (some te)) (hes : argsE.startDate = none)
    (hmb : mb.scheduledStartTime = some (startOfDay ts))
    (hma : ma.scheduledStartTime = some (startOfDay ts - 1)) :
    dateMatch argsS m = jsGe m.scheduledStartTime (some (startOfDay ts)) ∧
    dateMatch argsS mb = true ∧
    dateMatch argsS ma = false ∧
    (meetingFilter argsS m = true →
      jsGe m.scheduledStartTime (some (startOfDay ts)) = true) ∧
    dateMatch argsE m = jsLe m.scheduledStartTime (some (endOfDay te)) ∧
    startOfDay ts % msPerDay = 0 ∧
    startOfDay ts ≤ ts ∧ ts < startOfDay ts + msPerDay ∧
    endOfDay te = startOfDay te + (msPerDay - 1) := by
  have hS : ∀ mm : Meeting,
      dateMatch argsS mm = jsGe mm.scheduledStartTime (some (startOfDay ts)) := by
    intro mm
    simp [dateMatch, hs, hse]
  refine ⟨hS m, ?_, ?_, ?_, ?_, ?_, ?_, ?_, rfl⟩
  · rw [hS mb, hmb]
    simp [jsGe]
  · rw [hS ma, hma]
    simp only [jsGe, decide_eq_false_iff_not]
    omega
  · intro hf
    rw [← hS m]
    unfold meetingFilter at hf
    rw [Bool.and_eq_true] at hf
    exact hf.2
  · simp [dateMatch, he, hes]
  · exact Int.mul_emod_right msPerDay (Int.fdiv ts msPerDay)
  · have h1 : msPerDay * Int.fdiv ts msPerDay + Int.fmod ts msPerDay = ts :=
      Int.fdiv_add_fmod ts msPerDay
    have h2 : 0 ≤ Int.fmod ts msPerDay := Int.fmod_nonneg' ts (by decide)
    unfold startOfDay
    omega
  · have h1 : msPerDay * Int.fdiv ts msPerDay + Int.fmod ts msPerDay = ts :=
      Int.fdiv_add_fmod ts msPerDay
    have h3 : Int.fmod ts msPerDay < msPerDay :=
      Int.fmod_lt_of_pos ts (by decide)
    unfold startOfDay
    omega

/-- Witness for C4 at the concrete start instant 2024-01-02T07:00Z
(1704178800000 ms) and end instant 2024-01-05T12:00Z (1704456000000 ms). -/
theorem search_date_boundaries_witness :
    dateMatch ⟨none, none, some (some 1704178800000), none⟩
        (Meeting.mk 1 none none (some 1704178800000) none none none none) =
      jsGe (Meeting.mk 1 none none (some 1704178800000) none none none none).scheduledStartTime
        (some (startOfDay 1704178800000)) ∧
    dateMatch ⟨none, none, some (some 1704178800000), none⟩
        (Meeting.mk 2 none none (some (startOfDay 1704178800000)) none none none none) = true ∧
    dateMatch ⟨none, none, some (some 1704178800000), none⟩
        (Meeting.mk 3 none none (some (startOfDay 1704178800000 - 1)) none none none none) = false ∧
    (meetingFilter ⟨none, none, some (some 1704178800000), none⟩
        (Meeting.mk 1 none none (some 1704178800000) none none none none) = true →
      jsGe (Meeting.mk 1 none none (some 1704178800000) none none none none).scheduledStartTime
        (some (startOfDay 1704178800000)) = true) ∧
    dateMatch ⟨none, none, none, some (some 1704456000000)⟩
        (Meeting.mk 1 none none (some 1704178800000) none none none none) =
      jsLe (Meeting.mk 1 none none (some 1704178800000) none none none none).scheduledStartTime
        (some (endOfDay 1704456000000)) ∧
    startOfDay 1704178800000 % msPerDay = 0 ∧
    startOfDay 1704178800000 ≤ 1704178800000 ∧
    1704178800000 < startOfDay 1704178800000 + msPerDay ∧
    endOfDay 1704456000000 = startOfDay 1704456000000 + (msPerDay - 1) :=
  search_date_boundaries ⟨none, none, some (some 1704178800000), none⟩
    ⟨none, none, none, some (some 1704456000000)⟩ 1704178800000 1704456000000
    (Meeting.mk 1 none none (some 1704178800000) none none none none)
    (Meeting.mk 2 none none (some (startOfDay 1704178800000)) none none none none)
    (Meeting.mk 3 none none (some (startOfDay 1704178800000 - 1)) none none none none)
    rfl rfl rfl rfl rfl rfl

theorem jsGe_none (a : Option Int) : jsGe a none = false := by cases a <;> rfl

theorem jsLe_none (a : Option Int) : jsLe a none = false := by cases a <;> rfl

/-- C9: a supplied date string that does not parse (an Invalid Date, `NaN`)
signals no error: every comparison against the `NaN` bound is false, so
every record fails the filter, and `search_meetings` returns an empty
result set whose error flag is exactly the aggregation's pagination error
flag. -/
theorem search_invalid_date_excludes_all (argsS argsE : SearchArgs) (m : Meeting)
    (pages : List (PageResp Meeting)) (ms : List Meeting) (e : Bool)
    (reqs : List ListReq)
    (hS : argsS.startDate = some none)
    (hE : argsE.endDate = some none)
    (hrun : fetchLoop false false "" pages = some (ms, e, reqs)) :
    meetingFilter argsS m = false ∧
    meetingFilter argsE m = false ∧
    searchMeetingsRun argsS pages = some ⟨[], 0, "", e, reqs⟩ := by
  have hfS : ∀ mm : Meeting, meetingFilter argsS mm = false := by
    intro mm
    have hd : dateMatch argsS mm = false := by
      simp [dateMatch, hS, jsGe_none]
    simp [meetingFilter, hd]
  have hfE : meetingFilter argsE m = false := by
    have hd : dateMatch argsE m = false := by
      simp [dateMatch, hE, jsLe_none]
    simp [meetingFilter, hd]
  refine ⟨hfS m, hfE, ?_⟩
  have hnil : ms.filter (meetingFilter argsS) = [] :=
    List.filter_eq_nil_iff.mpr (fun a _ => by simp [hfS a])
  simp only [searchMeetingsRun, hrun]
  rw [hnil]
  simp [ENABLE_ELICITATION]

/-- Witness for C9: an unparsable start date excludes even a record with a
valid scheduled start, and the error flag stays that of the (successful)
aggregation. -/
theorem search_invalid_date_excludes_all_witness :
    meetingFilter ⟨none, none, some none, none⟩
        (Meeting.mk 1 (some "Standup") none (some 1704178800000) none none none none) = false ∧
    meetingFilter ⟨none, none, none, some none⟩
        (Meeting.mk 1 (some "Standup") none (some 1704178800000) none none none none) = false ∧
    searchMeetingsRun ⟨none, none, some none, none⟩
        [PageResp.ok [Meeting.mk 1 (some "Standup") none (some 1704178800000) none none none none] ""] =
      some ⟨[], 0, "", false, [⟨"", false, false⟩]⟩ :=
  search_invalid_date_excludes_all ⟨none, none, some none, none⟩
    ⟨none, none, none, some none⟩
    (Meeting.mk 1 (some "Standup") none (some 1704178800000) none none none none)
    [PageResp.ok [Meeting.mk 1 (some "Standup") none (some 1704178800000) none none none none] ""]
    [Meeting.mk 1 (some "Standup") none (some 1704178800000) none none none none]
    false [⟨"", false, false⟩] rfl rfl rfl

theorem jor_ne_nullish (a b : JVal) (hb1 : b ≠ JVal.null) (hb2 : b ≠ JVal.undef)
    (hb3 : b ≠ JVal.str "") :
    jor a b ≠ JVal.null ∧ jor a b ≠ JVal.undef ∧ jor a b ≠ JVal.str "" := by
  unfold jor
  by_cases h : jtruthy a = true
  · rw [if_pos h]
    cases a with
    | undef => exact absurd h (by decide)
    | null => exact absurd h (by decide)
    | bool b =>
      exact ⟨fun hh => JVal.noConfusion hh, fun hh => JVal.noConfusion hh,
        fun hh => JVal.noConfusion hh⟩
    | num n =>
      exact ⟨fun hh => JVal.noConfusion hh, fun hh => JVal.noConfusion hh,
        fun hh => JVal.noConfusion hh⟩
    | str s =>
      refine ⟨fun hh => JVal.noConfusion hh, fun hh => JVal.noConfusion hh, fun hh => ?_⟩
      injection hh with h1
      rw [h1] at h
      exact absurd h (by decide)
    | arr xs =>
      exact ⟨fun hh => JVal.noConfusion hh, fun hh => JVal.noConfusion hh,
        fun hh => JVal.noConfusion hh⟩
    | obj fs =>
      exact ⟨fun hh => JVal.noConfusion hh, fun hh => JVal.noConfusion hh,
        fun hh => JVal.noConfusion hh⟩
  · rw [if_neg h]
    exact ⟨hb1, hb2, hb3⟩

theorem speaker_never_nullish (it : JVal) :
    (formatSegment it).speaker ≠ JVal.null ∧
    (formatSegment it).speaker ≠ JVal.undef ∧
    (formatSegment it).speaker ≠ JVal.str "" := by
  have hsp : (formatSegment it).speaker =
      jor (joptGet (jget it "speaker") "name") (JVal.str "Unknown Speaker") := rfl
  rw [hsp]
  exact jor_ne_nullish _ _ (fun hh => JVal.noConfusion hh) (fun hh => JVal.noConfusion hh)
    (fun hh => by injection hh with h1; exact absurd h1 (by decide))

/-- C7: the transcript handler normalises every segment to the shape
`{speaker, speakerEmail, text, timestamp}` by mapping `formatSegment` over
the upstream array in order; a segment whose speaker name is absent
(nullish) gets the literal "Unknown Speaker", and no segment's reported
speaker is ever null, undefined or the empty string. -/
theorem transcript_speaker_fallback (rid : Int) (items : List JVal) (item : JVal)
    (habs : joptGet (jget item "speaker") "name" = JVal.undef ∨
            joptGet (jget item "speaker") "name" = JVal.null) :
    (fathomGetTranscript rid (JVal.obj [("transcript", JVal.arr items)])).transcriptOf =
      some (items.map formatSegment) ∧
    (formatSegment item).speaker = JVal.str "Unknown Speaker" ∧
    (∀ it : JVal, (formatSegment it).speaker ≠ JVal.null ∧
      (formatSegment it).speaker ≠ JVal.undef ∧
      (formatSegment it).speaker ≠ JVal.str "") := by
  refine ⟨rfl, ?_, fun it => speaker_never_nullish it⟩
  rcases habs with h | h <;> simp [formatSegment, jor, h, jtruthy]

/-- Witness for C7: a one-segment transcript whose segment has no speaker
object at all. -/
theorem transcript_speaker_fallback_witness :
    (fathomGetTranscript 1 (JVal.obj [("transcript", JVal.arr [JVal.obj []])])).transcriptOf =
      some ([JVal.obj []].map formatSegment) ∧
    (formatSegment (JVal.obj [])).speaker = JVal.str "Unknown Speaker" ∧
    (∀ it : JVal, (formatSegment it).speaker ≠ JVal.null ∧
      (formatSegment it).speaker ≠ JVal.undef ∧
      (formatSegment it).speaker ≠ JVal.str "") :=
  transcript_speaker_fallback 1 [JVal.obj []] (JVal.obj []) (Or.inl rfl)

/-- C8: whenever the parsed transcript response body is not an object
carrying a `transcript` array, the handler returns the error result built
from that body (the tool-level error flag is set and no transcript is
returned). -/
theorem transcript_unrecognized_shape_error (rid : Int) (data : JVal)
    (h : extractTranscript data = none) :
    fathomGetTranscript rid data = TranscriptResult.unexpectedFormat data ∧
    (fathomGetTranscript rid data).isError = true ∧
    (fathomGetTranscript rid data).transcriptOf = none := by
  have h1 : fathomGetTranscript rid data = TranscriptResult.unexpectedFormat data := by
    unfold fathomGetTranscript
    rw [h]
  exact ⟨h1, by rw [h1]; rfl, by rw [h1]; rfl⟩

/-- Witness for C8: an array body (typeof object, but with no `transcript`
member) yields the error result. -/
theorem transcript_unrecognized_shape_error_witness :
    fathomGetTranscript 1 (JVal.arr [JVal.str "hello"]) =
      TranscriptResult.unexpectedFormat (JVal.arr [JVal.str "hello"]) ∧
    (fathomGetTranscript 1 (JVal.arr [JVal.str "hello"])).isError = true ∧
    (fathomGetTranscript 1 (JVal.arr [JVal.str "hello"])).transcriptOf = none :=
  transcript_unrecognized_shape_error 1 (JVal.arr [JVal.str "hello"]) rfl
